import Mathlib

/-!
Verification of the ingress-observer operator and the report receiver.

The embedding follows the two Python sources:
  * `src/operator/ingress_observer.py` — host extraction, TLS secret name
    extraction, certificate lookup, report building, and the periodic
    trigger/dedup-guard logic;
  * `src/receiver/app.py` — the fixed-capacity report history.

Modelling conventions:
  * machine time is a `Nat`; for the certificate expiry it counts days
    (the source's `utcnow() + timedelta(days=90)` becomes `now + 90`),
    for the scheduler it counts seconds (the source's `time.time()`);
  * the Kubernetes secret-read API is a function parameter returning an
    explicit result (`ok` with the optional data keys, an `ApiException`
    with its HTTP status, or any other exception);
  * fallible per-entry processing returns `Except`; the per-entry
    `try/except` of `build_report` catches the error branch;
  * a body that makes per-entry processing raise (the "malformed
    resource" case, including the source's non-dict Store fallbacks that
    end in `continue`) is the distinguished value `BodyVal.malformed`.
-/

namespace IngressObserver

/-- One entry of `spec.rules` of an Ingress body: its optional `host`
field (`none` models a missing key, `some ""` an explicitly empty one). -/
structure Rule where
  host : Option String
deriving DecidableEq, Repr

/-- One entry of `spec.tls` of an Ingress body: its optional `secretName`. -/
structure TLSEntry where
  secretName : Option String
deriving DecidableEq, Repr

/-- The parts of an Ingress resource body read by the operator:
`spec.rules` and `spec.tls` (missing keys default to `[]`, as the
source's `.get(..., [])` does). -/
structure IngressBody where
  rules : List Rule := []
  tls : List TLSEntry := []
deriving DecidableEq, Repr

/-- Certificate descriptor produced by `get_certificate_info`:
`{name, expires}` with `expires` counted in days. -/
structure CertificateDescriptor where
  name : String
  expires : Nat
deriving DecidableEq, Repr

/-- One element of the report's `ingresses` list. The field `ns` models
the JSON key `namespace` (a Lean keyword). `certificate = none` models
the key being absent from the emitted dict. -/
structure ReportEntry where
  ns : String
  name : String
  host : String
  certificate : Option CertificateDescriptor
deriving DecidableEq, Repr

/-- The report built by `build_report`: `{cluster, ingresses}`. -/
structure Report where
  cluster : String
  ingresses : List ReportEntry
deriving DecidableEq, Repr

/-- Result of `core_v1_api.read_namespaced_secret`:
`ok data` is a successful read where `data` is `none` when the secret's
`data` attribute is `None` and otherwise the list of its keys;
`apiError status` is a `kubernetes.client.rest.ApiException` with the
given HTTP status (404 = not found); `otherError` is any other raised
exception. -/
inductive SecretResult where
  | ok (data : Option (List String))
  | apiError (status : Nat)
  | otherError
deriving DecidableEq, Repr

/-- The secret-read API as seen by the operator: namespace and secret
name to a `SecretResult`. -/
abbrev SecretApi := String → String → SecretResult

/-- Python truthiness of an optional string (`if tls_secret_name:` /
`if not secret_name:`): `None` and `""` are falsy. -/
def optTruthy : Option String → Bool
  | none => false
  | some s => !(s == "")

/-- The accumulation loop of `extract_hosts`: walk the rules, appending
each truthy `host` to the accumulated list (`hosts.append(host)`). -/
def extractHostsLoop : List Rule → List String → List String
  | [], hosts => hosts
  | r :: rs, hosts =>
    match r.host with
    | some h => if h == "" then extractHostsLoop rs hosts else extractHostsLoop rs (hosts ++ [h])
    | none => extractHostsLoop rs hosts

/-- `extract_hosts(ingress_body)`: the non-empty `host` fields of
`spec.rules`, in rule order. -/
def extract_hosts (b : IngressBody) : List String :=
  extractHostsLoop b.rules []

/-- `get_tls_secret_name(ingress_body)`: the `secretName` of the first
`spec.tls` entry, or `None` when the tls list is empty. -/
def get_tls_secret_name (b : IngressBody) : Option String :=
  match b.tls with
  | [] => none
  | t :: _ => t.secretName

/-- `get_certificate_info(namespace, secret_name)`: returns `None` for a
falsy secret name; otherwise reads the secret, and when the read
succeeds with truthy data containing `tls.crt` or `ca.crt`, returns the
descriptor `{name: secret_name, expires: now + 90 days}`. Every
exception (`ApiException`, 404 or not, and any other) is caught and
yields `None`. -/
def get_certificate_info (api : SecretApi) (now : Nat) (ns : String)
    (sname : Option String) : Option CertificateDescriptor :=
  match sname with
  | none => none
  | some s =>
    if s == "" then none
    else
      match api ns s with
      | SecretResult.ok data =>
        match data with
        | none => none
        | some keys =>
          if !keys.isEmpty && (keys.contains "tls.crt" || keys.contains "ca.crt")
          then some { name := s, expires := now + 90 }
          else none
      | SecretResult.apiError _ => none
      | SecretResult.otherError => none

/-- A value stored under one index key: either a well-formed body, or a
body whose processing raises inside the per-entry `try` block (a
malformed resource, or a Store object none of the source's conversion
fallbacks can turn into a dict — every such path skips the entry). -/
inductive BodyVal where
  | good (b : IngressBody)
  | malformed
deriving DecidableEq, Repr

/-- One entry of the Kopf index passed to `build_report`: a
`(namespace, name)` key and the list of stored bodies. -/
abbrev IndexEntry := (String × String) × List BodyVal

/-- The inner host loop of `build_report`: for each host, append one
entry dict `{namespace, name, host}` — with the `certificate` key only
when `certificate_info` is truthy — to the accumulated list. -/
def appendEntries (ns nm : String) (cert : Option CertificateDescriptor) :
    List String → List ReportEntry → List ReportEntry
  | [], acc => acc
  | h :: hs, acc =>
    appendEntries ns nm cert hs (acc ++ [{ ns := ns, name := nm, host := h, certificate := cert }])

/-- The `try` block of one iteration of `build_report`'s entry loop:
skip empty body lists, take the first body, raise on a malformed one,
skip hostless bodies, look up the certificate once when the first TLS
secret name is truthy, and emit one entry per host. -/
def entryAttempt (api : SecretApi) (now : Nat) (e : IndexEntry) :
    Except String (List ReportEntry) :=
  match e with
  | ((ns, nm), bodies) =>
    match bodies with
    | [] => Except.ok []
    | BodyVal.malformed :: _ => Except.error "error processing entry"
    | BodyVal.good b :: _ =>
      let hosts := extract_hosts b
      if hosts.isEmpty then Except.ok []
      else
        let tlsName := get_tls_secret_name b
        let cert := if optTruthy tlsName then get_certificate_info api now ns tlsName else none
        Except.ok (appendEntries ns nm cert hosts [])

/-- One iteration of `build_report`'s entry loop including its
`except Exception` handler: on success the new entries extend
`ingresses_list`, on a raised error the entry is logged and skipped
(`continue`). -/
def processOne (api : SecretApi) (now : Nat) (acc : List ReportEntry)
    (e : IndexEntry) : List ReportEntry :=
  match entryAttempt api now e with
  | Except.ok newEntries => acc ++ newEntries
  | Except.error _ => acc

/-- `build_report(ingresses_index)`: the early return for a falsy index,
then the entry loop folded over the index with `ingresses_list`
starting empty, wrapped as `{cluster, ingresses}`. -/
def build_report (cluster : String) (api : SecretApi) (now : Nat)
    (idx : List IndexEntry) : Report :=
  if idx.isEmpty then { cluster := cluster, ingresses := [] }
  else { cluster := cluster, ingresses := idx.foldl (processOne api now) [] }

/-- Number of `get_certificate_info` invocations made while processing
one index entry, transcribed from the control flow of `build_report`:
none for an empty or malformed body list, none once the hostless skip
fires, and exactly one when the first TLS secret name is truthy. -/
def certLookupCalls : IndexEntry → Nat
  | (_, []) => 0
  | (_, BodyVal.malformed :: _) => 0
  | (_, BodyVal.good b :: _) =>
    if (extract_hosts b).isEmpty then 0
    else if optTruthy (get_tls_secret_name b) then 1 else 0

/-- Whether processing this index entry raises inside the per-entry
`try` block. -/
def entryFaults : IndexEntry → Bool
  | (_, BodyVal.malformed :: _) => true
  | _ => false

/-- Hosts that the entry contributes entries for: the extracted hosts of
its first stored body when that body is well formed, else none. -/
def entryHosts : IndexEntry → List String
  | (_, BodyVal.good b :: _) => extract_hosts b
  | _ => []

/-- The certificate attached to every entry emitted for this index
entry: the shared per-resource lookup result when the first TLS secret
name is truthy, else absent. -/
def entryCert (api : SecretApi) (now : Nat) : IndexEntry → Option CertificateDescriptor
  | ((ns, _), BodyVal.good b :: _) =>
    if optTruthy (get_tls_secret_name b)
    then get_certificate_info api now ns (get_tls_secret_name b)
    else none
  | _ => none

/-- The dedup guard of `periodic_report_handler`: fires at time `t`
with `_last_report_time = last`; when `t - last < REPORT_INTERVAL - 1`
it skips (no delivery, guard unchanged), otherwise it sets the guard to
`t`, builds and delivers. Returns (delivered?, new guard value). -/
def timerTrigger (interval last t : Nat) : Bool × Nat :=
  if t - last < interval - 1 then (false, last) else (true, t)

/-- One wake of the `while True` loop of `periodic_report_task`: it
builds and delivers unconditionally, consulting no guard and leaving
`_last_report_time` unchanged. Returns (delivered?, new guard value). -/
def taskTrigger (last _t : Nat) : Bool × Nat := (true, last)

/-- A report trigger: the timer handler firing, or the background
periodic task waking, each at a point in time (seconds). -/
inductive Trigger where
  | timer (t : Nat)
  | task (t : Nat)
deriving DecidableEq, Repr

/-- Number of reports delivered by a sequence of triggers, threading the
`_last_report_time` guard (initially `last`, `0` at process start). -/
def runTriggers (interval : Nat) : Nat → List Trigger → Nat
  | _, [] => 0
  | last, Trigger.timer t :: rest =>
    match timerTrigger interval last t with
    | (d, last') => (if d then 1 else 0) + runTriggers interval last' rest
  | last, Trigger.task t :: rest =>
    match taskTrigger last t with
    | (d, last') => (if d then 1 else 0) + runTriggers interval last' rest

end IngressObserver

namespace ReceiverApp

open IngressObserver

/-- One element of the receiver's `reports` deque: the receive
timestamp paired with the posted report. -/
structure StoredReport where
  timestamp : Nat
  report : Report
deriving DecidableEq, Repr

/-- `reports.append(x)` on a `deque(maxlen=maxlen)`: the element is
appended on the right and, when the length would exceed `maxlen`,
elements are discarded from the left (oldest first). -/
def dequeAppend (maxlen : Nat) (q : List StoredReport) (x : StoredReport) :
    List StoredReport :=
  (q ++ [x]).drop (q.length + 1 - maxlen)

/-- The `/report` POST handler `receive_report`: `body = none` models
`request.get_json()` yielding no JSON data (the `if not data` branch,
HTTP 400, storage untouched); otherwise the report is wrapped with the
receive timestamp, appended to the deque, and HTTP 200 is returned.
Returns (status code, new deque contents). -/
def receive_report (maxlen now : Nat) (q : List StoredReport)
    (body : Option Report) : Nat × List StoredReport :=
  match body with
  | none => (400, q)
  | some data => (200, dequeAppend maxlen q { timestamp := now, report := data })

end ReceiverApp

namespace IngressObserver

/-- A secret-read API where every secret exists with `tls.crt` data. -/
def apiTls : SecretApi := fun _ _ => SecretResult.ok (some ["tls.crt"])

/-- An Ingress body with no rules and no TLS block. -/
def bodyNoHosts : IngressBody := { rules := [], tls := [] }

/-- An Ingress body with one rule for host `a.example.com` and a TLS
block naming secret `cert1`. -/
def bodyOneHost : IngressBody :=
  { rules := [{ host := some "a.example.com" }], tls := [{ secretName := some "cert1" }] }

end IngressObserver

namespace ReceiverApp

open IngressObserver

/-- A sample stored report used to instantiate the receiver theorems. -/
def sampleStored : StoredReport :=
  { timestamp := 0, report := { cluster := "local-minikube", ingresses := [] } }

/-- Sample reports posted in sequence in the receiver scenario. -/
def repA : Report := { cluster := "A", ingresses := [] }

/-- Second sample report of the receiver scenario. -/
def repB : Report := { cluster := "B", ingresses := [] }

/-- Third sample report of the receiver scenario. -/
def repC : Report := { cluster := "C", ingresses := [] }

end ReceiverApp

namespace IngressObserver

/-- The host-loop accumulator: `appendEntries` extends the accumulated
list with one entry per host, in host order. -/
theorem appendEntries_eq_map (ns nm : String) (cert : Option CertificateDescriptor) :
    ∀ (hs : List String) (acc : List ReportEntry),
      appendEntries ns nm cert hs acc
        = acc ++ hs.map (fun h => { ns := ns, name := nm, host := h, certificate := cert })
  | [], acc => by simp [appendEntries]
  | h :: hs, acc => by
    rw [appendEntries, appendEntries_eq_map ns nm cert hs]
    simp

/-- One loop iteration only appends to `ingresses_list`. -/
theorem processOne_eq_append (api : SecretApi) (now : Nat) (acc : List ReportEntry)
    (e : IndexEntry) : processOne api now acc e = acc ++ processOne api now [] e := by
  unfold processOne
  cases entryAttempt api now e <;> simp

/-- The entry loop folded over the index is the concatenation of the
per-entry contributions. -/
theorem foldl_processOne_eq (api : SecretApi) (now : Nat) :
    ∀ (idx : List IndexEntry) (acc : List ReportEntry),
      idx.foldl (processOne api now) acc
        = acc ++ idx.flatMap (fun e => processOne api now [] e)
  | [], acc => by simp
  | e :: idx, acc => by
    rw [List.foldl_cons, foldl_processOne_eq api now idx (processOne api now acc e),
      processOne_eq_append]
    simp

/-- Closed form of `build_report`: the configured cluster name together
with the concatenated per-entry contributions (the early return for the
empty index agrees with the fold). -/
theorem build_report_eq (cluster : String) (api : SecretApi) (now : Nat)
    (idx : List IndexEntry) :
    build_report cluster api now idx
      = { cluster := cluster, ingresses := idx.flatMap (fun e => processOne api now [] e) } := by
  unfold build_report
  cases idx with
  | nil => simp
  | cons e idx => rw [if_neg (by simp), foldl_processOne_eq]; simp

/-- The contribution of one index entry: one entry per extracted host of
its first well-formed body, in host order, all with that entry's key and
its shared certificate lookup result. -/
theorem processOne_nil_eq (api : SecretApi) (now : Nat) (e : IndexEntry) :
    processOne api now [] e
      = (entryHosts e).map (fun h =>
          { ns := e.1.1, name := e.1.2, host := h, certificate := entryCert api now e }) := by
  obtain ⟨⟨ns, nm⟩, bodies⟩ := e
  cases bodies with
  | nil => simp [processOne, entryAttempt, entryHosts]
  | cons bv rest =>
    cases bv with
    | malformed => simp [processOne, entryAttempt, entryHosts]
    | good b =>
      by_cases hh : (extract_hosts b).isEmpty
      · rw [List.isEmpty_iff] at hh
        simp [processOne, entryAttempt, entryHosts, hh]
      · simp [processOne, entryAttempt, entryHosts, entryCert, hh, appendEntries_eq_map]

/-- The extraction loop appends the filtered hosts after the
accumulator. -/
theorem extractHostsLoop_eq :
    ∀ (rs : List Rule) (acc : List String),
      extractHostsLoop rs acc
        = acc ++ rs.filterMap (fun r =>
            match r.host with
            | some h => if h == "" then none else some h
            | none => none)
  | [], acc => by simp [extractHostsLoop]
  | r :: rs, acc => by
    cases hr : r.host with
    | none => simp [extractHostsLoop, hr, List.filterMap_cons, extractHostsLoop_eq rs]
    | some h =>
      by_cases hh : h = ""
      · simp [extractHostsLoop, hr, hh, List.filterMap_cons, extractHostsLoop_eq rs]
      · simp [extractHostsLoop, hr, hh, List.filterMap_cons, extractHostsLoop_eq rs]

/-- A list containing an element is not empty. -/
theorem mem_isEmpty_false (keys : List String) (a : String)
    (h : a ∈ keys) : keys.isEmpty = false := by
  cases keys with
  | nil => cases h
  | cons k ks => rfl

/-- Characterization of a successful certificate lookup: it returns a
descriptor exactly when the secret name is present and non-empty and the
secret read succeeds with data containing `tls.crt` or `ca.crt`, and the
descriptor is then `{name: secret name, expires: now + 90}`. -/
theorem get_certificate_info_some_iff (api : SecretApi) (now : Nat) (ns : String)
    (sname : Option String) (d : CertificateDescriptor) :
    get_certificate_info api now ns sname = some d ↔
      ∃ s, sname = some s ∧ s ≠ "" ∧ d = { name := s, expires := now + 90 } ∧
        ∃ keys, api ns s = SecretResult.ok (some keys) ∧
          (keys.contains "tls.crt" = true ∨ keys.contains "ca.crt" = true) := by
  cases sname with
  | none => simp [get_certificate_info]
  | some s =>
    by_cases hs : s = ""
    · subst hs; simp [get_certificate_info]
    · cases hapi : api ns s with
      | apiError st => simp [get_certificate_info, hs, hapi]
      | otherError => simp [get_certificate_info, hs, hapi]
      | ok data =>
        cases data with
        | none => simp [get_certificate_info, hs, hapi]
        | some keys =>
          by_cases h1 : "tls.crt" ∈ keys
          · simp [get_certificate_info, hs, hapi, h1, mem_isEmpty_false keys _ h1]
            try tauto
          · by_cases h2 : "ca.crt" ∈ keys
            · simp [get_certificate_info, hs, hapi, h1, h2, mem_isEmpty_false keys _ h2]
              try tauto
            · simp [get_certificate_info, hs, hapi, h1, h2]
              try tauto

/-- A successful certificate lookup forces a truthy secret name. -/
theorem optTruthy_of_lookup_some (api : SecretApi) (now : Nat) (ns : String)
    (sname : Option String) (d : CertificateDescriptor)
    (h : get_certificate_info api now ns sname = some d) : optTruthy sname = true := by
  cases sname with
  | none => simp [get_certificate_info] at h
  | some s =>
    by_cases hs : s == ""
    · rw [get_certificate_info, if_pos hs] at h; cases h
    · simp [optTruthy, hs]

end IngressObserver

namespace IngressObserver

/-- C1: for every resource with N ≥ 1 extracted hosts whose certificate
lookup succeeds, the entry loop of `build_report` emits exactly N report
entries for that resource, all carrying the same certificate
descriptor, and `get_certificate_info` is invoked at most once for the
resource (not once per host). -/
theorem C1_one_lookup_shared_cert (api : SecretApi) (now : Nat) (ns nm : String)
    (b : IngressBody) (rest : List BodyVal) (c : CertificateDescriptor)
    (hN : 1 ≤ (extract_hosts b).length)
    (hc : get_certificate_info api now ns (get_tls_secret_name b) = some c) :
    (processOne api now [] ((ns, nm), BodyVal.good b :: rest)).length
        = (extract_hosts b).length ∧
    (∀ x ∈ processOne api now [] ((ns, nm), BodyVal.good b :: rest),
        x.certificate = some c) ∧
    certLookupCalls ((ns, nm), BodyVal.good b :: rest) ≤ 1 := by
  have htruthy := optTruthy_of_lookup_some api now ns _ c hc
  have hne : (extract_hosts b).isEmpty = false := by
    cases hE : extract_hosts b with
    | nil => rw [hE] at hN; simp at hN
    | cons _ _ => rfl
  have hblock : processOne api now [] ((ns, nm), BodyVal.good b :: rest)
      = (extract_hosts b).map
          (fun h => { ns := ns, name := nm, host := h, certificate := some c }) := by
    rw [processOne_nil_eq]
    simp [entryHosts, entryCert, htruthy, hc]
  refine ⟨?_, ?_, ?_⟩
  · rw [hblock]; simp
  · intro x hx
    rw [hblock] at hx
    simp only [List.mem_map] at hx
    obtain ⟨h, _, rfl⟩ := hx
    rfl
  · simp [certLookupCalls, hne, htruthy]

/-- C1 witness: a resource with one host and secret `cert1` against an
API holding `tls.crt` data. -/
theorem C1_one_lookup_shared_cert_witness :
    (processOne apiTls 0 [] (("ns1", "ing1"), [BodyVal.good bodyOneHost])).length
        = (extract_hosts bodyOneHost).length ∧
    (∀ x ∈ processOne apiTls 0 [] (("ns1", "ing1"), [BodyVal.good bodyOneHost]),
        x.certificate = some { name := "cert1", expires := 90 }) ∧
    certLookupCalls (("ns1", "ing1"), [BodyVal.good bodyOneHost]) ≤ 1 :=
  C1_one_lookup_shared_cert apiTls 0 "ns1" "ing1" bodyOneHost []
    { name := "cert1", expires := 90 } (by decide) (by decide)

/-- C2: the code violates the claim that two triggers (timer handler and
background task) within one interval window deliver at most one report.
Concrete run: interval 45, guard `_last_report_time` initially 0; the
timer handler fires at t = 100, delivers and sets the guard to 100; the
background task wakes at t = 101 — only 1 second later, well before
`interval − 1` seconds have elapsed — and delivers again, because
`periodic_report_task` neither consults nor updates the guard. Two
triggers in one window, two deliveries. -/
theorem C2_double_delivery :
    runTriggers 45 0 [Trigger.timer 100, Trigger.task 101] = 2 ∧ 101 - 100 < 45 - 1 := by
  decide

/-- C3: building a report from an empty index returns the configured
cluster name and an empty `ingresses` list; `build_report` is total, so
this never fails. -/
theorem C3_empty_index_report (cluster : String) (api : SecretApi) (now : Nat) :
    build_report cluster api now [] = { cluster := cluster, ingresses := [] } := rfl

/-- C4: a resource whose extracted host list is empty contributes no
report entry — its loop iteration leaves `ingresses_list` unchanged and
the built report equals the report built without that resource.
`build_report` is a total function, so the exclusion raises nothing and
is identical on every build of the same snapshot. -/
theorem C4_hostless_excluded (cluster : String) (api : SecretApi) (now : Nat)
    (ns nm : String) (b : IngressBody) (rest : List BodyVal)
    (pre post : List IndexEntry)
    (h : extract_hosts b = []) :
    processOne api now [] ((ns, nm), BodyVal.good b :: rest) = [] ∧
    build_report cluster api now (pre ++ ((ns, nm), BodyVal.good b :: rest) :: post)
      = build_report cluster api now (pre ++ post) := by
  have hp : processOne api now [] ((ns, nm), BodyVal.good b :: rest) = [] := by
    rw [processOne_nil_eq]
    simp [entryHosts, h]
  refine ⟨hp, ?_⟩
  rw [build_report_eq, build_report_eq]
  simp [hp]

/-- C4 witness: a body with no rules inside a one-entry index. -/
theorem C4_hostless_excluded_witness :
    processOne apiTls 0 [] (("ns1", "ing1"), [BodyVal.good bodyNoHosts]) = [] ∧
    build_report "local-minikube" apiTls 0 [(("ns1", "ing1"), [BodyVal.good bodyNoHosts])]
      = build_report "local-minikube" apiTls 0 [] :=
  C4_hostless_excluded "local-minikube" apiTls 0 "ns1" "ing1" bodyNoHosts [] [] []
    (by decide)

/-- C5: the certificate lookup returns a descriptor if and only if the
secret name is present and non-empty and the secret read succeeds with
data containing `tls.crt` or `ca.crt`; the descriptor then carries the
secret name and an expiry 90 days from lookup time. In every other case
(absent or empty name, missing secret, data without both fields, API or
transport error) the total function returns `none`, so a lookup failure
can never abort report assembly. -/
theorem C5_lookup_behavior (api : SecretApi) (now : Nat) (ns : String)
    (sname : Option String) :
    ((∃ d, get_certificate_info api now ns sname = some d) ↔
      (∃ s keys, sname = some s ∧ s ≠ "" ∧
        api ns s = SecretResult.ok (some keys) ∧
        ("tls.crt" ∈ keys ∨ "ca.crt" ∈ keys))) ∧
    (∀ d, get_certificate_info api now ns sname = some d →
      sname = some d.name ∧ d.expires = now + 90) := by
  constructor
  · constructor
    · rintro ⟨d, hd⟩
      rcases (get_certificate_info_some_iff api now ns sname d).mp hd with
        ⟨s, hsn, hne, hdd, keys, hok, hc⟩
      exact ⟨s, keys, hsn, hne, hok, by simpa using hc⟩
    · rintro ⟨s, keys, hsn, hne, hok, hc⟩
      exact ⟨{ name := s, expires := now + 90 },
        (get_certificate_info_some_iff api now ns sname _).mpr
          ⟨s, hsn, hne, rfl, keys, hok, by simpa using hc⟩⟩
  · intro d hd
    rcases (get_certificate_info_some_iff api now ns sname d).mp hd with
      ⟨s, hsn, hne, hdd, keys, hok, hc⟩
    subst hdd
    exact ⟨hsn, rfl⟩

/-- C5 witness: looking up secret `cert1` against an API holding
`tls.crt` data succeeds with the 90-day descriptor. -/
theorem C5_lookup_behavior_witness :
    get_certificate_info apiTls 0 "default" (some "cert1")
        = some { name := "cert1", expires := 90 } ∧
    ((some "cert1" : Option String) = some "cert1" ∧ (90 : Nat) = 0 + 90) :=
  ⟨by decide, (C5_lookup_behavior apiTls 0 "default" (some "cert1")).2
      { name := "cert1", expires := 90 } (by decide)⟩

/-- C6: host extraction returns exactly the non-empty `host` fields of
the rules list, in rule order — `filterMap` keeps order and duplicates
and drops exactly the missing and empty hosts. -/
theorem C6_hosts_in_rule_order (b : IngressBody) :
    extract_hosts b = b.rules.filterMap (fun r =>
      match r.host with
      | some h => if h == "" then none else some h
      | none => none) := by
  rw [extract_hosts, extractHostsLoop_eq]
  simp

/-- C7: an error raised while processing one indexed entry is caught and
the loop continues: the built report equals the report built from the
non-faulting entries alone, so every non-faulting resource's entries
survive a malformed neighbour. -/
theorem C7_fault_isolation (cluster : String) (api : SecretApi) (now : Nat)
    (idx : List IndexEntry) :
    build_report cluster api now idx
      = build_report cluster api now (idx.filter (fun e => !entryFaults e)) := by
  rw [build_report_eq, build_report_eq]
  have hmain : idx.flatMap (fun e => processOne api now [] e)
      = (idx.filter (fun e => !entryFaults e)).flatMap
          (fun e => processOne api now [] e) := by
    induction idx with
    | nil => rfl
    | cons e idx ih =>
      by_cases hf : entryFaults e = true
      · have hzero : processOne api now [] e = [] := by
          obtain ⟨k, bodies⟩ := e
          obtain ⟨ns, nm⟩ := k
          cases bodies with
          | nil => simp [entryFaults] at hf
          | cons bv rest =>
            cases bv with
            | good b => simp [entryFaults] at hf
            | malformed => simp [processOne, entryAttempt]
        simp [List.filter_cons, hf, hzero, ih]
      · simp [List.filter_cons, hf, ih]
  rw [hmain]

/-- C10: in every built report the entries of one resource are
contiguous — the `ingresses` list is the concatenation, in index order,
of per-resource blocks, each block listing that resource's extracted
hosts in order with the resource's namespace, name and shared
certificate. -/
theorem C10_entries_contiguous (cluster : String) (api : SecretApi) (now : Nat)
    (idx : List IndexEntry) :
    (build_report cluster api now idx).ingresses
      = idx.flatMap (fun e =>
          (entryHosts e).map (fun h =>
            { ns := e.1.1, name := e.1.2, host := h,
              certificate := entryCert api now e })) := by
  rw [build_report_eq]
  simp only [processOne_nil_eq]

end IngressObserver

namespace ReceiverApp

/-- C8: the receiver's history never exceeds the configured capacity —
appending to the full deque evicts from the left (oldest first) — and
posting three reports to a capacity-2 receiver leaves exactly the last
two, in arrival order. -/
theorem C8_ring_buffer (maxlen now : Nat) (q : List StoredReport)
    (x : StoredReport) (body : Option IngressObserver.Report)
    (hq : q.length ≤ maxlen) :
    (dequeAppend maxlen q x).length ≤ maxlen ∧
    ((receive_report maxlen now q body).2).length ≤ maxlen ∧
    (∀ (t1 t2 t3 : Nat) (r1 r2 r3 : IngressObserver.Report),
      (receive_report 2 t3
        (receive_report 2 t2
          (receive_report 2 t1 [] (some r1)).2 (some r2)).2 (some r3)).2
        = [{ timestamp := t2, report := r2 }, { timestamp := t3, report := r3 }]) := by
  have hlen : ∀ y : StoredReport, (dequeAppend maxlen q y).length ≤ maxlen := by
    intro y
    simp only [dequeAppend, List.length_drop, List.length_append,
      List.length_singleton]
    omega
  refine ⟨hlen x, ?_, ?_⟩
  · cases body with
    | none => exact hq
    | some data => exact hlen _
  · intro t1 t2 t3 r1 r2 r3
    rfl

/-- C8 witness: capacity 2, empty initial history, three posted
reports. -/
theorem C8_ring_buffer_witness :
    (dequeAppend 2 [] sampleStored).length ≤ 2 ∧
    ((receive_report 2 0 [] none).2).length ≤ 2 ∧
    (receive_report 2 2
      (receive_report 2 1
        (receive_report 2 0 [] (some repA)).2 (some repB)).2 (some repC)).2
      = [{ timestamp := 1, report := repB }, { timestamp := 2, report := repC }] := by
  have h := C8_ring_buffer 2 0 [] sampleStored none (by decide)
  exact ⟨h.1, h.2.1, h.2.2 0 1 2 repA repB repC⟩

/-- C9: a POST to `/report` carrying no JSON data returns HTTP 400 and
leaves the stored history exactly as it was — nothing appended, nothing
evicted. -/
theorem C9_no_json_returns_400 (maxlen now : Nat) (q : List StoredReport) :
    receive_report maxlen now q none = (400, q) := rfl

end ReceiverApp
